import Mathlib

/-!
# Verification of the libconfig convenience layer (`handy.go`)

This file embeds the pooled path-accessor layer of the repository
(`src/handy.go`) together with a model of the document engine it drives.
The engine itself (JSON grammar, `Parser`, `Value` and its coercion
methods, `ParserPool`) is code of the repository that is not part of
`src/`; those definitions are therefore modelled from the specification
and are marked `Modelled from the spec:` in their doc comments.  All the
definitions in this file are executable, so each property can be
evaluated on concrete inputs.

Bytes are modelled as `String` (a byte buffer and a text buffer carry
the same character data in the model); a Go `nil` byte slice is
`Option.none`, a non-nil slice `s` is `Option.some s`.  A Go `*big.Int`
is `Option Int` (with `none` standing for a nil pointer).  A Go `panic`
is modelled by returning the error in the right summand of a sum type.
-/

namespace Libconfig

/-- Modelled from the spec: a node of the parsed document tree, of some
JSON type (object, array, string, number, boolean, null), as in the
glossary and §3 of the spec.  Numbers are modelled as arbitrary-precision
integers; numeric coercion rounding rules are a declared non-goal of the
spec, and every number appearing in its scenarios is an integer. -/
inductive Json where
  | null : Json
  | bool (b : Bool) : Json
  | num (i : Int) : Json
  | str (s : String) : Json
  | arr (xs : List Json) : Json
  | obj (kvs : List (String × Json)) : Json

/-- Modelled from the spec: a descriptive parse error as returned by the
document engine (`parse(input) -> ParsedDocument | ParseError`, §1).
It carries the offending input. -/
structure ParseError where
  input : String
deriving DecidableEq

/-- Whitespace skipping for the modelled JSON grammar. -/
def skipWs : List Char → List Char
  | [] => []
  | c :: rest =>
    if c = ' ' ∨ c = '\n' ∨ c = '\t' ∨ c = '\r' then skipWs rest
    else c :: rest

/-- Read a run of decimal digits; returns the digits and the rest. -/
def spanDigits : List Char → List Char × List Char
  | [] => ([], [])
  | c :: rest =>
    if c.isDigit then
      let (ds, r) := spanDigits rest
      (c :: ds, r)
    else ([], c :: rest)

/-- Numeric value of a list of decimal digits. -/
def digitsToNat (ds : List Char) : Nat :=
  ds.foldl (fun acc c => acc * 10 + (c.toNat - 48)) 0

/-- Read the characters of a string literal after the opening quote,
up to the closing quote.  A backslash (escape sequence) or a missing
closing quote makes the literal malformed in the modelled grammar. -/
def takeStringChars : List Char → Option (List Char × List Char)
  | [] => none
  | c :: rest =>
    if c = '"' then some ([], rest)
    else if c = '\\' then none
    else
      match takeStringChars rest with
      | some (cs, r) => some (c :: cs, r)
      | none => none

/-- Modelled from the spec: the document engine's recursive-descent
parser for the JSON grammar (out-of-scope collaborator, §1), restricted
to what the spec's scenarios exercise: objects, arrays, strings without
escape sequences, integer numerals, booleans and null.  `fuel` bounds
the recursion depth.  Returns the parsed value and the unconsumed rest
of the input, or `none` on malformed input.

Arrays and objects with more than one element are parsed by re-entering
the function on the rest of the element list prefixed with the opening
bracket, which keeps the recursion structural in `fuel`. -/
def parseVal : Nat → List Char → Option (Json × List Char)
  | 0, _ => none
  | Nat.succ fuel, input =>
    match skipWs input with
    | [] => none
    | '"' :: r =>
      match takeStringChars r with
      | some (cs, r2) => some (Json.str (String.mk cs), r2)
      | none => none
    | 't' :: 'r' :: 'u' :: 'e' :: r => some (Json.bool true, r)
    | 'f' :: 'a' :: 'l' :: 's' :: 'e' :: r => some (Json.bool false, r)
    | 'n' :: 'u' :: 'l' :: 'l' :: r => some (Json.null, r)
    | '-' :: r =>
      match spanDigits r with
      | ([], _) => none
      | (ds, r2) => some (Json.num (-(digitsToNat ds : Int)), r2)
    | '[' :: r =>
      match skipWs r with
      | ']' :: r2 => some (Json.arr [], r2)
      | r1 =>
        match parseVal fuel r1 with
        | none => none
        | some (x, r2) =>
          match skipWs r2 with
          | ']' :: r3 => some (Json.arr [x], r3)
          | ',' :: r3 =>
            match parseVal fuel ('[' :: r3) with
            | some (Json.arr xs, r4) => some (Json.arr (x :: xs), r4)
            | _ => none
          | _ => none
    | '{' :: r =>
      match skipWs r with
      | '}' :: r2 => some (Json.obj [], r2)
      | '"' :: r1 =>
        match takeStringChars r1 with
        | none => none
        | some (kcs, r2) =>
          match skipWs r2 with
          | ':' :: r3 =>
            match parseVal fuel r3 with
            | none => none
            | some (x, r4) =>
              match skipWs r4 with
              | '}' :: r5 => some (Json.obj [(String.mk kcs, x)], r5)
              | ',' :: r5 =>
                match parseVal fuel ('{' :: r5) with
                | some (Json.obj kvs, r6) =>
                  some (Json.obj ((String.mk kcs, x) :: kvs), r6)
                | _ => none
              | _ => none
          | _ => none
      | _ => none
    | c :: r =>
      if c.isDigit then
        match spanDigits (c :: r) with
        | ([], _) => none
        | (ds, r2) => some (Json.num (digitsToNat ds : Int), r2)
      else none

/-- Modelled from the spec: parsing a whole document.  The entire input
must be consumed apart from trailing whitespace; trailing data is a
parse error (§4.2). -/
def parseJson (data : String) : Option Json :=
  match parseVal (2 * data.length + 2) data.data with
  | some (v, rest) => if skipWs rest = [] then some v else none
  | none => none

/-- Modelled from the spec (§3, §6): a path segment that is a
non-negative decimal digit string, read as an array index. -/
def segIndex (s : String) : Option Nat :=
  if s.data ≠ [] ∧ s.data.all Char.isDigit then some (digitsToNat s.data)
  else none

/-- First binding of a key in an object's member list. -/
def lookupKey : List (String × Json) → String → Option Json
  | [], _ => none
  | (k, v) :: rest, key => if k = key then some v else lookupKey rest key

/-- Modelled from the spec (§3, §4.3 step 3): resolve a path against a
node, segment by segment.  A digit-string segment is an array index
when the current node is an array; every segment is an object key when
the current node is an object; descent into any other node, a missing
key, or an out-of-range index yields absent (`none`).  The empty path
resolves to the node itself. -/
def navigate : Json → List String → Option Json
  | v, [] => some v
  | v, k :: rest =>
    match v with
    | Json.arr xs =>
      match segIndex k with
      | some i =>
        match xs.get? i with
        | some x => navigate x rest
        | none => none
      | none => none
    | Json.obj kvs =>
      match lookupKey kvs k with
      | some x => navigate x rest
      | none => none
    | _ => none

/-- Modelled from the spec (§4.2, §4.3): the engine's string coercion,
`Value.GetStringBytes`.  A string node yields its text (a view into the
parser's buffer, hence non-nil); anything else yields `nil`. -/
def Json.GetStringBytes (v : Json) (keys : List String) : Option String :=
  match navigate v keys with
  | some (Json.str s) => some s
  | _ => none

/-- Modelled from the spec (§4.2, §4.3): the engine's integer coercion,
`Value.GetInt`; a number node yields its value, anything else 0. -/
def Json.GetInt (v : Json) (keys : List String) : Int :=
  match navigate v keys with
  | some (Json.num i) => i
  | _ => 0

/-- Modelled from the spec (§4.3 table, §8 scenario `{"h":"1f"}`): the
engine's hexadecimal coercion, `Value.GetHex`; a string node yields its
text (hex digits), anything else the empty string. -/
def Json.GetHex (v : Json) (keys : List String) : String :=
  match navigate v keys with
  | some (Json.str s) => s
  | _ => ""

/-- Modelled from the spec (§4.3 table, §8 big-integer scenario): the
engine's arbitrary-precision coercion, `Value.GetBigint`; a number node
yields its exact value, anything else numeric zero. -/
def Json.GetBigint (v : Json) (keys : List String) : Int :=
  match navigate v keys with
  | some (Json.num i) => i
  | _ => 0

/-- Modelled from the spec (§4.2, §4.3): the engine's floating-point
coercion, `Value.GetFloat64`; numeric values in the model are exact
(rounding rules are a declared non-goal of the spec). -/
def Json.GetFloat64 (v : Json) (keys : List String) : Rat :=
  match navigate v keys with
  | some (Json.num i) => (i : Rat)
  | _ => 0

/-- Modelled from the spec (§4.2, §4.3): the engine's boolean coercion,
`Value.GetBool`; a boolean node yields its value, anything else false. -/
def Json.GetBool (v : Json) (keys : List String) : Bool :=
  match navigate v keys with
  | some (Json.bool b) => b
  | _ => false

/-- Modelled from the spec (§4.3): the engine's existence check,
`Value.Exists`: navigation without coercion, true exactly when the path
resolves to a node. -/
def Json.Exists (v : Json) (keys : List String) : Bool :=
  match navigate v keys with
  | some _ => true
  | none => false

/-- Modelled from the spec (§2, §3): a parser instance.  It owns scratch
state (the most recently produced parse tree, standing for its internal
buffers); `id` gives the instance an identity so that aliasing between a
returned document and a particular instance can be tracked.  Starting a
new parse overwrites `scratch`, invalidating the previous result. -/
structure Parser where
  id : Nat
  scratch : Option Json

/-- The world the pooled layer threads: the idle set of the shared
`handyPool` (`var handyPool ParserPool` in `src/handy.go`) and an
allocation counter supplying fresh parser identities. -/
structure World where
  pool : List Parser
  nextId : Nat

/-- Observable pool/parser events of one call, used to state the
acquire/release discipline and non-interference: which instance was
acquired, which instance ran a parse (overwriting its scratch state),
and which instance was released. -/
inductive PoolEvent where
  | acquire (i : Nat) : PoolEvent
  | parse (i : Nat) : PoolEvent
  | release (i : Nat) : PoolEvent
deriving DecidableEq

/-- Modelled from the spec (§4.1): `ParserPool.Get` / `acquire()`:
returns an idle parser if one exists, otherwise constructs a fresh one;
never fails. -/
def poolGet (w : World) : Parser × World :=
  match w.pool with
  | [] => (⟨w.nextId, none⟩, ⟨[], w.nextId + 1⟩)
  | p :: ps => (p, ⟨ps, w.nextId⟩)

/-- Modelled from the spec (§4.1): `ParserPool.Put` / `release(parser)`:
returns the parser to the idle set. -/
def poolPut (p : Parser) (w : World) : World :=
  ⟨p :: w.pool, w.nextId⟩

/-- Modelled from the spec (§1, §3): `Parser.ParseBytes` /
`Parser.Parse`: turn the input into a parsed document or a parse error;
a successful parse stores the new tree in the instance's scratch state,
discarding the previous one.  The result depends only on the input
(`parse` is reusable across calls through the same instance, §1). -/
def Parser.parseBytes (p : Parser) (data : String) :
    Parser × Except ParseError Json :=
  match parseJson data with
  | some v => (⟨p.id, some v⟩, Except.ok v)
  | none => (p, Except.error ⟨data⟩)

/-- Go `string(sb)` on a byte slice: `nil` becomes the empty string. -/
def goString : Option String → String
  | none => ""
  | some s => s

/-- `src/handy.go` lines 40–51, `GetString`: acquire a pooled parser,
parse, coerce via `Value.GetStringBytes`, convert to a caller-owned
string, release; empty string on parse error.  Returns the value, the
world after the call, and the call's pool-event trace. -/
def GetString (data : String) (keys : List String) (w : World) :
    String × World × List PoolEvent :=
  let p := (poolGet w).1
  let w1 := (poolGet w).2
  match p.parseBytes data with
  | (p2, Except.error _) =>
    ("", poolPut p2 w1, [.acquire p.id, .parse p.id, .release p2.id])
  | (p2, Except.ok v) =>
    let sb := v.GetStringBytes keys
    let str := goString sb
    (str, poolPut p2 w1, [.acquire p.id, .parse p.id, .release p2.id])

/-- Go `var b []byte; if sb != nil { b = append(b, sb...) }`
(`src/handy.go` lines 71–74): the defensive copy of the coerced bytes.
Appending zero elements to a nil slice leaves it nil, so an empty
source slice copies to `nil`. -/
def byteCopy : Option String → Option String
  | none => none
  | some s => if s = "" then none else some s

/-- `src/handy.go` lines 61–78, `GetBytes`: acquire, parse, coerce via
`Value.GetStringBytes`, copy the bytes out of the parser's buffer,
release; `nil` on parse error. -/
def GetBytes (data : String) (keys : List String) (w : World) :
    Option String × World × List PoolEvent :=
  let p := (poolGet w).1
  let w1 := (poolGet w).2
  match p.parseBytes data with
  | (p2, Except.error _) =>
    (none, poolPut p2 w1, [.acquire p.id, .parse p.id, .release p2.id])
  | (p2, Except.ok v) =>
    let sb := v.GetStringBytes keys
    let b := byteCopy sb
    (b, poolPut p2 w1, [.acquire p.id, .parse p.id, .release p2.id])

/-- `src/handy.go` lines 88–98, `GetInt`: acquire, parse, coerce via
`Value.GetInt`, release; 0 on parse error. -/
def GetInt (data : String) (keys : List String) (w : World) :
    Int × World × List PoolEvent :=
  let p := (poolGet w).1
  let w1 := (poolGet w).2
  match p.parseBytes data with
  | (p2, Except.error _) =>
    (0, poolPut p2 w1, [.acquire p.id, .parse p.id, .release p2.id])
  | (p2, Except.ok v) =>
    let n := v.GetInt keys
    (n, poolPut p2 w1, [.acquire p.id, .parse p.id, .release p2.id])

/-- `src/handy.go` lines 100–110, `GetHex`: acquire, parse, coerce via
`Value.GetHex`, release; empty string on parse error. -/
def GetHex (data : String) (keys : List String) (w : World) :
    String × World × List PoolEvent :=
  let p := (poolGet w).1
  let w1 := (poolGet w).2
  match p.parseBytes data with
  | (p2, Except.error _) =>
    ("", poolPut p2 w1, [.acquire p.id, .parse p.id, .release p2.id])
  | (p2, Except.ok v) =>
    let n := v.GetHex keys
    (n, poolPut p2 w1, [.acquire p.id, .parse p.id, .release p2.id])

/-- `src/handy.go` lines 112–122, `GetBigint`: acquire, parse, coerce
via `Value.GetBigint`, release; on parse error a freshly allocated
`big.NewInt(0)` (a non-nil pointer to numeric zero).  The `*big.Int`
result is `Option Int`, `none` standing for a nil pointer. -/
def GetBigint (data : String) (keys : List String) (w : World) :
    Option Int × World × List PoolEvent :=
  let p := (poolGet w).1
  let w1 := (poolGet w).2
  match p.parseBytes data with
  | (p2, Except.error _) =>
    (some 0, poolPut p2 w1, [.acquire p.id, .parse p.id, .release p2.id])
  | (p2, Except.ok v) =>
    let n := v.GetBigint keys
    (some n, poolPut p2 w1, [.acquire p.id, .parse p.id, .release p2.id])

/-- `src/handy.go` lines 132–142, `GetFloat64`: acquire, parse, coerce
via `Value.GetFloat64`, release; 0 on parse error. -/
def GetFloat64 (data : String) (keys : List String) (w : World) :
    Rat × World × List PoolEvent :=
  let p := (poolGet w).1
  let w1 := (poolGet w).2
  match p.parseBytes data with
  | (p2, Except.error _) =>
    (0, poolPut p2 w1, [.acquire p.id, .parse p.id, .release p2.id])
  | (p2, Except.ok v) =>
    let f := v.GetFloat64 keys
    (f, poolPut p2 w1, [.acquire p.id, .parse p.id, .release p2.id])

/-- `src/handy.go` lines 152–162, `GetBool`: acquire, parse, coerce via
`Value.GetBool`, release; false on parse error. -/
def GetBool (data : String) (keys : List String) (w : World) :
    Bool × World × List PoolEvent :=
  let p := (poolGet w).1
  let w1 := (poolGet w).2
  match p.parseBytes data with
  | (p2, Except.error _) =>
    (false, poolPut p2 w1, [.acquire p.id, .parse p.id, .release p2.id])
  | (p2, Except.ok v) =>
    let b := v.GetBool keys
    (b, poolPut p2 w1, [.acquire p.id, .parse p.id, .release p2.id])

/-- `src/handy.go` lines 171–181, `Exists`: acquire, parse, check the
path via `Value.Exists`, release; false on parse error. -/
def Exists (data : String) (keys : List String) (w : World) :
    Bool × World × List PoolEvent :=
  let p := (poolGet w).1
  let w1 := (poolGet w).2
  match p.parseBytes data with
  | (p2, Except.error _) =>
    (false, poolPut p2 w1, [.acquire p.id, .parse p.id, .release p2.id])
  | (p2, Except.ok v) =>
    let ok := v.Exists keys
    (ok, poolPut p2 w1, [.acquire p.id, .parse p.id, .release p2.id])

/-- `src/handy.go` lines 186–189, `Parse`: `var p Parser` constructs a
private, non-pooled parser (modelled as a fresh identity drawn from the
allocation counter) and parses with it.  The pool is never touched.
Returns the parse result, the identity of the private parser (for the
aliasing analysis), the world after the call, and the trace. -/
def Parse (s : String) (w : World) :
    (Except ParseError Json × Nat) × World × List PoolEvent :=
  let p : Parser := ⟨w.nextId, none⟩
  let w1 : World := ⟨w.pool, w.nextId + 1⟩
  match p.parseBytes s with
  | (p2, r) => ((r, p2.id), w1, [.parse p2.id])

/-- `src/handy.go` lines 195–201, `MustParse`: call `Parse`; on error,
`panic(err)` — modelled as the right summand carrying the original
error value as the abort's cause. -/
def MustParse (s : String) (w : World) :
    (Json ⊕ ParseError) × World × List PoolEvent :=
  match Parse s w with
  | ((Except.ok v, _), w1, t) => (Sum.inl v, w1, t)
  | ((Except.error e, _), w1, t) => (Sum.inr e, w1, t)

/-- `src/handy.go` lines 206–209, `ParseBytes`: same as `Parse`,
operating on a byte buffer (`Parser.ParseBytes` on a fresh private
parser). -/
def ParseBytes (b : String) (w : World) :
    (Except ParseError Json × Nat) × World × List PoolEvent :=
  let p : Parser := ⟨w.nextId, none⟩
  let w1 : World := ⟨w.pool, w.nextId + 1⟩
  match p.parseBytes b with
  | (p2, r) => ((r, p2.id), w1, [.parse p2.id])

/-- `src/handy.go` lines 215–221, `MustParseBytes`: call `ParseBytes`;
on error, `panic(err)` — modelled as the right summand carrying the
original error value. -/
def MustParseBytes (b : String) (w : World) :
    (Json ⊕ ParseError) × World × List PoolEvent :=
  match ParseBytes b w with
  | ((Except.ok v, _), w1, t) => (Sum.inl v, w1, t)
  | ((Except.error e, _), w1, t) => (Sum.inr e, w1, t)

/-! ## Pool discipline and non-interference infrastructure -/

/-- The identities of the parser instances currently idle in the pool. -/
def poolIds (w : World) : List Nat := w.pool.map Parser.id

/-- Well-formed world: every pooled instance was drawn from the
allocation counter, so its identity is below `nextId`. -/
def WF (w : World) : Prop := ∀ p ∈ w.pool, p.id < w.nextId

/-- A parser identity `i` is out of reach of the pooled layer in world
`w`: the world is well-formed, `i` is not idle in the pool, and `i` is
below the allocation counter (so it will never be re-issued). -/
def safeFor (i : Nat) (w : World) : Prop :=
  WF w ∧ i ∉ poolIds w ∧ i < w.nextId

/-- The identities of the instances on which a trace ran a parse
(overwriting their scratch state and invalidating any document they
previously produced). -/
def parsedIds : List PoolEvent → List Nat
  | [] => []
  | PoolEvent.parse i :: t => i :: parsedIds t
  | _ :: t => parsedIds t

/-- One call of the public API, for stating properties of arbitrary
later call sequences. -/
inductive Op where
  | opGetString (data : String) (keys : List String) : Op
  | opGetBytes (data : String) (keys : List String) : Op
  | opGetInt (data : String) (keys : List String) : Op
  | opGetHex (data : String) (keys : List String) : Op
  | opGetBigint (data : String) (keys : List String) : Op
  | opGetFloat64 (data : String) (keys : List String) : Op
  | opGetBool (data : String) (keys : List String) : Op
  | opExists (data : String) (keys : List String) : Op
  | opParse (s : String) : Op
  | opMustParse (s : String) : Op
  | opParseBytes (b : String) : Op
  | opMustParseBytes (b : String) : Op

/-- Run one public API call for its effect on the world, also returning
its pool-event trace. -/
def runOp : Op → World → World × List PoolEvent
  | Op.opGetString d k, w => (GetString d k w).2
  | Op.opGetBytes d k, w => (GetBytes d k w).2
  | Op.opGetInt d k, w => (GetInt d k w).2
  | Op.opGetHex d k, w => (GetHex d k w).2
  | Op.opGetBigint d k, w => (GetBigint d k w).2
  | Op.opGetFloat64 d k, w => (GetFloat64 d k w).2
  | Op.opGetBool d k, w => (GetBool d k w).2
  | Op.opExists d k, w => (Exists d k w).2
  | Op.opParse s, w => (Parse s w).2
  | Op.opMustParse s, w => (MustParse s w).2
  | Op.opParseBytes b, w => (ParseBytes b w).2
  | Op.opMustParseBytes b, w => (MustParseBytes b w).2

/-- Run a sequence of public API calls, concatenating their traces. -/
def runOps : List Op → World → World × List PoolEvent
  | [], w => (w, [])
  | o :: os, w =>
    ((runOps os (runOp o w).1).1, (runOp o w).2 ++ (runOps os (runOp o w).1).2)


/-- The empty initial world: no idle parser instances, no allocations
made yet. -/
def w0 : World := ⟨[], 0⟩

/-- A world whose pool already holds an idle parser instance with stale
scratch state, for exercising pool-occupancy independence. -/
def wBusy : World := ⟨[⟨0, some Json.null⟩], 1⟩

/-! ## Characterization lemmas

Each pooled accessor is a pure function of `(data, keys)` in its value
component; its world and trace components follow one fixed
acquire/parse/release shape.  These lemmas compute all three components
in closed form. -/

lemma GetString_eq (d : String) (k : List String) (w : World) :
    GetString d k w =
      ((match parseJson d with
        | some v => goString (v.GetStringBytes k)
        | none => ""),
       poolPut (match parseJson d with
                | some v => ⟨(poolGet w).1.id, some v⟩
                | none => (poolGet w).1) (poolGet w).2,
       [.acquire (poolGet w).1.id, .parse (poolGet w).1.id,
        .release (poolGet w).1.id]) := by
  unfold GetString Parser.parseBytes
  cases parseJson d <;> rfl

lemma GetBytes_eq (d : String) (k : List String) (w : World) :
    GetBytes d k w =
      ((match parseJson d with
        | some v => byteCopy (v.GetStringBytes k)
        | none => none),
       poolPut (match parseJson d with
                | some v => ⟨(poolGet w).1.id, some v⟩
                | none => (poolGet w).1) (poolGet w).2,
       [.acquire (poolGet w).1.id, .parse (poolGet w).1.id,
        .release (poolGet w).1.id]) := by
  unfold GetBytes Parser.parseBytes
  cases parseJson d <;> rfl

lemma GetInt_eq (d : String) (k : List String) (w : World) :
    GetInt d k w =
      ((match parseJson d with
        | some v => v.GetInt k
        | none => 0),
       poolPut (match parseJson d with
                | some v => ⟨(poolGet w).1.id, some v⟩
                | none => (poolGet w).1) (poolGet w).2,
       [.acquire (poolGet w).1.id, .parse (poolGet w).1.id,
        .release (poolGet w).1.id]) := by
  unfold GetInt Parser.parseBytes
  cases parseJson d <;> rfl

lemma GetHex_eq (d : String) (k : List String) (w : World) :
    GetHex d k w =
      ((match parseJson d with
        | some v => v.GetHex k
        | none => ""),
       poolPut (match parseJson d with
                | some v => ⟨(poolGet w).1.id, some v⟩
                | none => (poolGet w).1) (poolGet w).2,
       [.acquire (poolGet w).1.id, .parse (poolGet w).1.id,
        .release (poolGet w).1.id]) := by
  unfold GetHex Parser.parseBytes
  cases parseJson d <;> rfl

lemma GetBigint_eq (d : String) (k : List String) (w : World) :
    GetBigint d k w =
      ((match parseJson d with
        | some v => some (v.GetBigint k)
        | none => some 0),
       poolPut (match parseJson d with
                | some v => ⟨(poolGet w).1.id, some v⟩
                | none => (poolGet w).1) (poolGet w).2,
       [.acquire (poolGet w).1.id, .parse (poolGet w).1.id,
        .release (poolGet w).1.id]) := by
  unfold GetBigint Parser.parseBytes
  cases parseJson d <;> rfl

lemma GetFloat64_eq (d : String) (k : List String) (w : World) :
    GetFloat64 d k w =
      ((match parseJson d with
        | some v => v.GetFloat64 k
        | none => 0),
       poolPut (match parseJson d with
                | some v => ⟨(poolGet w).1.id, some v⟩
                | none => (poolGet w).1) (poolGet w).2,
       [.acquire (poolGet w).1.id, .parse (poolGet w).1.id,
        .release (poolGet w).1.id]) := by
  unfold GetFloat64 Parser.parseBytes
  cases parseJson d <;> rfl

lemma GetBool_eq (d : String) (k : List String) (w : World) :
    GetBool d k w =
      ((match parseJson d with
        | some v => v.GetBool k
        | none => false),
       poolPut (match parseJson d with
                | some v => ⟨(poolGet w).1.id, some v⟩
                | none => (poolGet w).1) (poolGet w).2,
       [.acquire (poolGet w).1.id, .parse (poolGet w).1.id,
        .release (poolGet w).1.id]) := by
  unfold GetBool Parser.parseBytes
  cases parseJson d <;> rfl

lemma Exists_eq (d : String) (k : List String) (w : World) :
    Exists d k w =
      ((match parseJson d with
        | some v => v.Exists k
        | none => false),
       poolPut (match parseJson d with
                | some v => ⟨(poolGet w).1.id, some v⟩
                | none => (poolGet w).1) (poolGet w).2,
       [.acquire (poolGet w).1.id, .parse (poolGet w).1.id,
        .release (poolGet w).1.id]) := by
  unfold Exists Parser.parseBytes
  cases parseJson d <;> rfl

lemma Parse_eq (s : String) (w : World) :
    Parse s w =
      (((match parseJson s with
         | some v => Except.ok v
         | none => Except.error ⟨s⟩), w.nextId),
       ⟨w.pool, w.nextId + 1⟩, [.parse w.nextId]) := by
  unfold Parse Parser.parseBytes
  cases parseJson s <;> rfl

lemma ParseBytes_eq (b : String) (w : World) :
    ParseBytes b w =
      (((match parseJson b with
         | some v => Except.ok v
         | none => Except.error ⟨b⟩), w.nextId),
       ⟨w.pool, w.nextId + 1⟩, [.parse w.nextId]) := by
  unfold ParseBytes Parser.parseBytes
  cases parseJson b <;> rfl

lemma MustParse_eq (s : String) (w : World) :
    MustParse s w =
      ((match parseJson s with
        | some v => Sum.inl v
        | none => Sum.inr ⟨s⟩),
       ⟨w.pool, w.nextId + 1⟩, [.parse w.nextId]) := by
  unfold MustParse
  rw [Parse_eq]
  cases parseJson s <;> rfl

lemma MustParseBytes_eq (b : String) (w : World) :
    MustParseBytes b w =
      ((match parseJson b with
        | some v => Sum.inl v
        | none => Sum.inr ⟨b⟩),
       ⟨w.pool, w.nextId + 1⟩, [.parse w.nextId]) := by
  unfold MustParseBytes
  rw [ParseBytes_eq]
  cases parseJson b <;> rfl

lemma poolGet_id_ne (i : Nat) (w : World) (hs : safeFor i w) :
    (poolGet w).1.id ≠ i := by
  obtain ⟨hwf, hmem, hlt⟩ := hs
  cases h : w.pool with
  | nil => simp [poolGet, h]; omega
  | cons p ps =>
    simp only [poolGet, h]
    intro hc
    exact hmem (by simp [poolIds, h, hc])

lemma safeFor_put (i : Nat) (w : World) (hs : safeFor i w)
    (sc : Option Json) :
    safeFor i (poolPut ⟨(poolGet w).1.id, sc⟩ (poolGet w).2) := by
  obtain ⟨hwf, hmem, hlt⟩ := hs
  cases h : w.pool with
  | nil =>
    refine ⟨?_, ?_, ?_⟩
    · intro p hp
      simp [poolGet, poolPut, h] at hp
      simp [hp, poolGet, poolPut, h]
    · simp [poolGet, poolPut, poolIds, h]; omega
    · simp [poolGet, poolPut, h]; omega
  | cons q qs =>
    refine ⟨?_, ?_, ?_⟩
    · intro p hp
      simp [poolGet, poolPut, h] at hp
      rcases hp with hp | hp
      · simp [hp, poolGet, poolPut, h]
        exact hwf q (by simp [h])
      · simp [poolGet, poolPut, h]
        exact hwf p (by simp [h, hp])
    · have hsame : poolIds (poolPut ⟨(poolGet w).1.id, sc⟩ (poolGet w).2) =
          poolIds w := by
        simp [poolIds, poolPut, poolGet, h]
      rw [hsame]; exact hmem
    · simpa [poolGet, poolPut, h] using hlt

lemma safeFor_bump (i : Nat) (w : World) (hs : safeFor i w) :
    safeFor i ⟨w.pool, w.nextId + 1⟩ :=
  ⟨fun p hp => Nat.lt_succ_of_lt (hs.1 p hp), hs.2.1,
   Nat.lt_succ_of_lt hs.2.2⟩

lemma parsedIds_append (t1 t2 : List PoolEvent) :
    parsedIds (t1 ++ t2) = parsedIds t1 ++ parsedIds t2 := by
  induction t1 with
  | nil => rfl
  | cons e t ih => cases e <;> simp [parsedIds, ih]

lemma runOp_safe (i : Nat) (o : Op) (w : World) (hs : safeFor i w) :
    safeFor i (runOp o w).1 ∧ i ∉ parsedIds (runOp o w).2 := by
  have hput : ∀ sc : Option Json,
      safeFor i (poolPut ⟨(poolGet w).1.id, sc⟩ (poolGet w).2) :=
    safeFor_put i w hs
  have hne : (poolGet w).1.id ≠ i := poolGet_id_ne i w hs
  have hacc : i ∉ parsedIds
      [PoolEvent.acquire (poolGet w).1.id, PoolEvent.parse (poolGet w).1.id,
       PoolEvent.release (poolGet w).1.id] := by
    simp [parsedIds]
    exact fun hc => hne hc.symm
  have hbump := safeFor_bump i w hs
  have hnext : i ∉ parsedIds [PoolEvent.parse w.nextId] := by
    simp [parsedIds]
    intro hc
    exact absurd hc.symm (Nat.ne_of_gt hs.2.2)
  cases o with
  | opGetString d k =>
    rw [runOp, GetString_eq]
    exact ⟨by cases parseJson d <;> exact hput _, hacc⟩
  | opGetBytes d k =>
    rw [runOp, GetBytes_eq]
    exact ⟨by cases parseJson d <;> exact hput _, hacc⟩
  | opGetInt d k =>
    rw [runOp, GetInt_eq]
    exact ⟨by cases parseJson d <;> exact hput _, hacc⟩
  | opGetHex d k =>
    rw [runOp, GetHex_eq]
    exact ⟨by cases parseJson d <;> exact hput _, hacc⟩
  | opGetBigint d k =>
    rw [runOp, GetBigint_eq]
    exact ⟨by cases parseJson d <;> exact hput _, hacc⟩
  | opGetFloat64 d k =>
    rw [runOp, GetFloat64_eq]
    exact ⟨by cases parseJson d <;> exact hput _, hacc⟩
  | opGetBool d k =>
    rw [runOp, GetBool_eq]
    exact ⟨by cases parseJson d <;> exact hput _, hacc⟩
  | opExists d k =>
    rw [runOp, Exists_eq]
    exact ⟨by cases parseJson d <;> exact hput _, hacc⟩
  | opParse s =>
    rw [runOp, Parse_eq]
    exact ⟨hbump, hnext⟩
  | opMustParse s =>
    rw [runOp, MustParse_eq]
    exact ⟨hbump, hnext⟩
  | opParseBytes b =>
    rw [runOp, ParseBytes_eq]
    exact ⟨hbump, hnext⟩
  | opMustParseBytes b =>
    rw [runOp, MustParseBytes_eq]
    exact ⟨hbump, hnext⟩

lemma runOps_safe (i : Nat) (ops : List Op) (w : World) (hs : safeFor i w) :
    safeFor i (runOps ops w).1 ∧ i ∉ parsedIds (runOps ops w).2 := by
  induction ops generalizing w with
  | nil => simpa [runOps, parsedIds] using hs
  | cons o os ih =>
    have h1 := runOp_safe i o w hs
    have h2 := ih (runOp o w).1 h1.1
    refine ⟨by simpa [runOps] using h2.1, ?_⟩
    simp only [runOps, parsedIds_append, List.mem_append]
    intro hc
    rcases hc with hc | hc
    · exact h1.2 hc
    · exact h2.2 hc

/-! ## Claim theorems -/

/-- C2: every accessor function acquires one pooled parser and releases
it exactly once, on both the parse-failure path and the success path,
before returning: its pool-event trace is exactly one acquire, one
parse, and one release of the same instance, for every input, path and
pool state. -/
theorem C2_accessors_release_exactly_once (data : String)
    (keys : List String) (w : World) :
    (GetString data keys w).2.2 =
      [PoolEvent.acquire (poolGet w).1.id, PoolEvent.parse (poolGet w).1.id,
       PoolEvent.release (poolGet w).1.id] ∧
    (GetBytes data keys w).2.2 =
      [PoolEvent.acquire (poolGet w).1.id, PoolEvent.parse (poolGet w).1.id,
       PoolEvent.release (poolGet w).1.id] ∧
    (GetInt data keys w).2.2 =
      [PoolEvent.acquire (poolGet w).1.id, PoolEvent.parse (poolGet w).1.id,
       PoolEvent.release (poolGet w).1.id] ∧
    (GetHex data keys w).2.2 =
      [PoolEvent.acquire (poolGet w).1.id, PoolEvent.parse (poolGet w).1.id,
       PoolEvent.release (poolGet w).1.id] ∧
    (GetBigint data keys w).2.2 =
      [PoolEvent.acquire (poolGet w).1.id, PoolEvent.parse (poolGet w).1.id,
       PoolEvent.release (poolGet w).1.id] ∧
    (GetFloat64 data keys w).2.2 =
      [PoolEvent.acquire (poolGet w).1.id, PoolEvent.parse (poolGet w).1.id,
       PoolEvent.release (poolGet w).1.id] ∧
    (GetBool data keys w).2.2 =
      [PoolEvent.acquire (poolGet w).1.id, PoolEvent.parse (poolGet w).1.id,
       PoolEvent.release (poolGet w).1.id] ∧
    (Exists data keys w).2.2 =
      [PoolEvent.acquire (poolGet w).1.id, PoolEvent.parse (poolGet w).1.id,
       PoolEvent.release (poolGet w).1.id] := by
  rw [GetString_eq, GetBytes_eq, GetInt_eq, GetHex_eq, GetBigint_eq,
      GetFloat64_eq, GetBool_eq, Exists_eq]
  exact ⟨rfl, rfl, rfl, rfl, rfl, rfl, rfl, rfl⟩

/-- C3: on malformed input every accessor returns its type's declared
default without propagating the parse error, `Parse` and `ParseBytes`
return a parse error, and `MustParse`/`MustParseBytes` abort carrying
that error. -/
theorem C3_malformed_input_defaults (data : String) (keys : List String)
    (w : World) (hp : parseJson data = none) :
    (GetString data keys w).1 = "" ∧
    (GetBytes data keys w).1 = none ∧
    (GetInt data keys w).1 = 0 ∧
    (GetHex data keys w).1 = "" ∧
    (GetBigint data keys w).1 = some 0 ∧
    (GetFloat64 data keys w).1 = 0 ∧
    (GetBool data keys w).1 = false ∧
    (Exists data keys w).1 = false ∧
    (Parse data w).1.1 = Except.error ⟨data⟩ ∧
    (ParseBytes data w).1.1 = Except.error ⟨data⟩ ∧
    (MustParse data w).1 = Sum.inr ⟨data⟩ ∧
    (MustParseBytes data w).1 = Sum.inr ⟨data⟩ := by
  rw [GetString_eq, GetBytes_eq, GetInt_eq, GetHex_eq, GetBigint_eq,
      GetFloat64_eq, GetBool_eq, Exists_eq, Parse_eq, ParseBytes_eq,
      MustParse_eq, MustParseBytes_eq, hp]
  exact ⟨rfl, rfl, rfl, rfl, rfl, rfl, rfl, rfl, rfl, rfl, rfl, rfl⟩

/-- Witness for C3 at the spec's literal scenario: input `not json`,
path `["a"]`. -/
theorem C3_malformed_input_defaults_witness :
    (GetString "not json" ["a"] w0).1 = "" ∧
    (GetInt "not json" ["a"] w0).1 = 0 ∧
    (Exists "not json" ["a"] w0).1 = false ∧
    (MustParse "not json" w0).1 = Sum.inr ⟨"not json"⟩ := by
  obtain ⟨h1, h2, h3, h4, h5, h6, h7, h8, h9, h10, h11, h12⟩ :=
    C3_malformed_input_defaults "not json" ["a"] w0 (by rfl)
  exact ⟨h1, h3, h8, h11⟩

/-- C6: the must-variants agree with `Parse`/`ParseBytes` on success and
abort with the original parse error as the cause on failure. -/
theorem C6_must_variants_agree_with_parse (s : String) (w : World) :
    (∀ v : Json, (Parse s w).1.1 = Except.ok v →
       (MustParse s w).1 = Sum.inl v) ∧
    (∀ e : ParseError, (Parse s w).1.1 = Except.error e →
       (MustParse s w).1 = Sum.inr e) ∧
    (∀ v : Json, (ParseBytes s w).1.1 = Except.ok v →
       (MustParseBytes s w).1 = Sum.inl v) ∧
    (∀ e : ParseError, (ParseBytes s w).1.1 = Except.error e →
       (MustParseBytes s w).1 = Sum.inr e) := by
  rw [Parse_eq, ParseBytes_eq, MustParse_eq, MustParseBytes_eq]
  cases parseJson s <;> simp

/-- Witness for C6: a well-formed input `1` and a malformed input `x`. -/
theorem C6_must_variants_agree_with_parse_witness :
    (MustParse "1" w0).1 = Sum.inl (Json.num 1) ∧
    (MustParse "x" w0).1 = Sum.inr ⟨"x"⟩ ∧
    (MustParseBytes "1" w0).1 = Sum.inl (Json.num 1) ∧
    (MustParseBytes "x" w0).1 = Sum.inr ⟨"x"⟩ := by
  have h1 := C6_must_variants_agree_with_parse "1" w0
  have h2 := C6_must_variants_agree_with_parse "x" w0
  exact ⟨h1.1 (Json.num 1) (by rfl), h2.2.1 ⟨"x"⟩ (by rfl),
         h1.2.2.1 (Json.num 1) (by rfl), h2.2.2.2 ⟨"x"⟩ (by rfl)⟩

/-- C10: `GetBigint` never returns a nil pointer, and on parse failure
it returns a (freshly allocated) big integer equal to zero, for every
input, path and pool state. -/
theorem C10_GetBigint_never_nil (data : String) (keys : List String)
    (w : World) :
    ((GetBigint data keys w).1).isSome = true ∧
    (parseJson data = none → (GetBigint data keys w).1 = some 0) := by
  rw [GetBigint_eq]
  cases parseJson data <;> simp

/-- Witness for C10 at the malformed input `not json`. -/
theorem C10_GetBigint_never_nil_witness :
    ((GetBigint "not json" [] w0).1).isSome = true ∧
    (GetBigint "not json" [] w0).1 = some 0 := by
  have h := C10_GetBigint_never_nil "not json" [] w0
  exact ⟨h.1, h.2 (by rfl)⟩

/-- C1: for a well-formed document and a path resolving to a node of a
compatible type, each accessor returns exactly the coerced value of that
node; and every accessor's value is independent of the world (pool
occupancy), the only channel through which other accessor calls before
or after could influence it, so there is no cross-call interference. -/
theorem C1_accessors_coerced_value_and_purity (data : String)
    (keys : List String) (w w' : World) (v : Json)
    (hp : parseJson data = some v) :
    ((∀ s : String, navigate v keys = some (Json.str s) →
        (GetString data keys w).1 = s ∧ (GetHex data keys w).1 = s ∧
        goString (GetBytes data keys w).1 = s) ∧
     (∀ i : Int, navigate v keys = some (Json.num i) →
        (GetInt data keys w).1 = i ∧ (GetBigint data keys w).1 = some i ∧
        (GetFloat64 data keys w).1 = (i : Rat)) ∧
     (∀ b : Bool, navigate v keys = some (Json.bool b) →
        (GetBool data keys w).1 = b) ∧
     (∀ n : Json, navigate v keys = some n →
        (Exists data keys w).1 = true)) ∧
    ((GetString data keys w).1 = (GetString data keys w').1 ∧
     (GetBytes data keys w).1 = (GetBytes data keys w').1 ∧
     (GetInt data keys w).1 = (GetInt data keys w').1 ∧
     (GetHex data keys w).1 = (GetHex data keys w').1 ∧
     (GetBigint data keys w).1 = (GetBigint data keys w').1 ∧
     (GetFloat64 data keys w).1 = (GetFloat64 data keys w').1 ∧
     (GetBool data keys w).1 = (GetBool data keys w').1 ∧
     (Exists data keys w).1 = (Exists data keys w').1) := by
  simp only [GetString_eq, GetBytes_eq, GetInt_eq, GetHex_eq, GetBigint_eq,
             GetFloat64_eq, GetBool_eq, Exists_eq, hp]
  refine ⟨⟨?_, ?_, ?_, ?_⟩, by trivial, by trivial, by trivial, by trivial,
         by trivial, by trivial, by trivial, by trivial⟩
  · intro s hs
    refine ⟨?_, ?_, ?_⟩
    · simp [Json.GetStringBytes, hs, goString]
    · simp [Json.GetHex, hs]
    · by_cases hse : s = "" <;>
        simp [Json.GetStringBytes, hs, byteCopy, goString, hse]
  · intro i hi
    exact ⟨by simp [Json.GetInt, hi], by simp [Json.GetBigint, hi],
           by simp [Json.GetFloat64, hi]⟩
  · intro b hb
    simp [Json.GetBool, hb]
  · intro n hn
    simp [Json.Exists, hn]

/-- Witness for C1 at the spec's literal scenario `{"a":{"b":42}}` with
path `["a","b"]`, once from the empty world and once from a world with
an occupied pool. -/
theorem C1_accessors_coerced_value_and_purity_witness :
    (GetInt "\x7b\"a\":\x7b\"b\":42\x7d\x7d" ["a", "b"] w0).1 = 42 ∧
    (Exists "\x7b\"a\":\x7b\"b\":42\x7d\x7d" ["a", "b"] w0).1 = true ∧
    (GetInt "\x7b\"a\":\x7b\"b\":42\x7d\x7d" ["a", "b"] wBusy).1 =
      (GetInt "\x7b\"a\":\x7b\"b\":42\x7d\x7d" ["a", "b"] w0).1 := by
  have h := C1_accessors_coerced_value_and_purity
    "\x7b\"a\":\x7b\"b\":42\x7d\x7d" ["a", "b"] w0 wBusy
    (Json.obj [("a", Json.obj [("b", Json.num 42)])]) (by rfl)
  have h2 := C1_accessors_coerced_value_and_purity
    "\x7b\"a\":\x7b\"b\":42\x7d\x7d" ["a", "b"] wBusy w0
    (Json.obj [("a", Json.obj [("b", Json.num 42)])]) (by rfl)
  exact ⟨(h.1.2.1 42 (by rfl)).1, h.1.2.2.2 (Json.num 42) (by rfl),
         h2.2.2.2.1⟩

/-- C5: for a document containing a string field at the given path, the
byte sequence returned by `GetBytes` converted to a string (Go's
`string(b)`, which maps nil to the empty string) equals the result of
`GetString`. -/
theorem C5_bytes_string_roundtrip (data : String) (keys : List String)
    (w : World) (v : Json) (s : String) (hp : parseJson data = some v)
    (hs : navigate v keys = some (Json.str s)) :
    goString (GetBytes data keys w).1 = (GetString data keys w).1 := by
  simp only [GetBytes_eq, GetString_eq, hp]
  by_cases hse : s = "" <;>
    simp [Json.GetStringBytes, hs, byteCopy, goString, hse]

/-- Witness for C5 at `{"a":"x"}` with path `["a"]`. -/
theorem C5_bytes_string_roundtrip_witness :
    goString (GetBytes "\x7b\"a\":\"x\"\x7d" ["a"] w0).1 =
      (GetString "\x7b\"a\":\"x\"\x7d" ["a"] w0).1 := by
  exact C5_bytes_string_roundtrip "\x7b\"a\":\"x\"\x7d" ["a"] w0
    (Json.obj [("a", Json.str "x")]) "x" (by rfl) (by rfl)

/-- C7: for a well-formed document and a path that resolves to no node,
every value accessor returns its type's declared default and `Exists`
returns false. -/
theorem C7_absent_path_defaults (data : String) (keys : List String)
    (w : World) (v : Json) (hp : parseJson data = some v)
    (hn : navigate v keys = none) :
    (GetString data keys w).1 = "" ∧
    (GetBytes data keys w).1 = none ∧
    (GetInt data keys w).1 = 0 ∧
    (GetHex data keys w).1 = "" ∧
    (GetBigint data keys w).1 = some 0 ∧
    (GetFloat64 data keys w).1 = 0 ∧
    (GetBool data keys w).1 = false ∧
    (Exists data keys w).1 = false := by
  simp only [GetString_eq, GetBytes_eq, GetInt_eq, GetHex_eq, GetBigint_eq,
             GetFloat64_eq, GetBool_eq, Exists_eq, hp]
  simp [Json.GetStringBytes, Json.GetInt, Json.GetHex, Json.GetBigint,
        Json.GetFloat64, Json.GetBool, Json.Exists, hn, goString, byteCopy]

/-- Witness for C7 at the spec's literal scenario `{"a":1}` with path
`["a","x"]` (descent into a scalar). -/
theorem C7_absent_path_defaults_witness :
    (GetInt "\x7b\"a\":1\x7d" ["a", "x"] w0).1 = 0 ∧
    (Exists "\x7b\"a\":1\x7d" ["a", "x"] w0).1 = false := by
  obtain ⟨h1, h2, h3, h4, h5, h6, h7, h8⟩ :=
    C7_absent_path_defaults "\x7b\"a\":1\x7d" ["a", "x"] w0
      (Json.obj [("a", Json.num 1)]) (by rfl) (by rfl)
  exact ⟨h3, h8⟩

/-- C8: a path segment that is a non-negative decimal digit string is
interpreted as an array index against an array node and as a literal
object key against an object node; in particular, on
`{"arr":[10,20,30]}` with path `["arr","1"]`, `GetInt` returns 20. -/
theorem C8_digit_segments_as_indices (xs : List Json) (k : String)
    (i : Nat) (rest : List String) (hi : segIndex k = some i)
    (kvs : List (String × Json)) (w : World) :
    navigate (Json.arr xs) (k :: rest) =
      (match xs.get? i with
       | some x => navigate x rest
       | none => none) ∧
    navigate (Json.obj kvs) (k :: rest) =
      (match lookupKey kvs k with
       | some x => navigate x rest
       | none => none) ∧
    (GetInt "\x7b\"arr\":[10,20,30]\x7d" ["arr", "1"] w).1 = 20 := by
  refine ⟨by simp [navigate, hi], by simp [navigate], ?_⟩
  rw [GetInt_eq]
  rfl

/-- Witness for C8 at the spec's literal scenario. -/
theorem C8_digit_segments_as_indices_witness :
    navigate (Json.arr [Json.num 10, Json.num 20, Json.num 30]) ["1"] =
      some (Json.num 20) ∧
    (GetInt "\x7b\"arr\":[10,20,30]\x7d" ["arr", "1"] w0).1 = 20 := by
  have h := C8_digit_segments_as_indices
    [Json.num 10, Json.num 20, Json.num 30] "1" 1 [] (by rfl) [] w0
  refine ⟨?_, h.2.2⟩
  rw [h.1]
  rfl

/-- C4 counterexample: on the well-formed document `{"a":""}`, whose
path `["a"]` resolves to a present-but-empty string value, `GetBytes`
returns `nil` — the very failure marker it returns on malformed input —
because appending zero bytes to the nil buffer `b` leaves it nil.  The
result is therefore not distinguishable from the failure marker. -/
theorem C4_counterexample_empty_string_yields_nil :
    parseJson "\x7b\"a\":\"\"\x7d" = some (Json.obj [("a", Json.str "")]) ∧
    (GetBytes "\x7b\"a\":\"\"\x7d" ["a"] w0).1 = none ∧
    (GetBytes "not json" ["a"] w0).1 = none :=
  ⟨rfl, rfl, rfl⟩

/-- C4 (amended): `GetBytes` returns the no-data marker `nil` on any
failure (parse error, absent path, or non-string node); a path that
resolves to a nonempty string yields a non-nil buffer, distinct from the
failure marker, but a present-but-empty string value also yields `nil`,
indistinguishable from failure. -/
theorem C4_GetBytes_nil_on_failure (data : String) (keys : List String)
    (w : World) :
    (parseJson data = none → (GetBytes data keys w).1 = none) ∧
    (∀ v : Json, parseJson data = some v →
       v.GetStringBytes keys = none → (GetBytes data keys w).1 = none) ∧
    (∀ v : Json, ∀ s : String, parseJson data = some v →
       navigate v keys = some (Json.str s) → s ≠ "" →
       (GetBytes data keys w).1 = some s) ∧
    (∀ v : Json, parseJson data = some v →
       navigate v keys = some (Json.str "") →
       (GetBytes data keys w).1 = none) := by
  refine ⟨?_, ?_, ?_, ?_⟩
  · intro hp
    simp [GetBytes_eq, hp]
  · intro v hp hsb
    simp [GetBytes_eq, hp, hsb, byteCopy]
  · intro v s hp hs hne
    simp [GetBytes_eq, hp, Json.GetStringBytes, hs, byteCopy, hne]
  · intro v hp hs
    simp [GetBytes_eq, hp, Json.GetStringBytes, hs, byteCopy]

/-- Witness for the amended C4: a nonempty present string, an empty
present string, and a malformed input. -/
theorem C4_GetBytes_nil_on_failure_witness :
    (GetBytes "\x7b\"a\":\"x\"\x7d" ["a"] w0).1 = some "x" ∧
    (GetBytes "\x7b\"a\":\"\"\x7d" ["a"] w0).1 = none ∧
    (GetBytes "not json" ["a"] w0).1 = none := by
  have h1 := C4_GetBytes_nil_on_failure "\x7b\"a\":\"x\"\x7d" ["a"] w0
  have h2 := C4_GetBytes_nil_on_failure "\x7b\"a\":\"\"\x7d" ["a"] w0
  have h3 := C4_GetBytes_nil_on_failure "not json" ["a"] w0
  exact ⟨h1.2.2.1 (Json.obj [("a", Json.str "x")]) "x" (by rfl) (by rfl)
           (by decide),
         h2.2.2.2 (Json.obj [("a", Json.str "")]) (by rfl) (by rfl),
         h3.1 (by rfl)⟩

/-- C9: `Parse` and `ParseBytes` construct a fresh private parser on
every call and never touch the shared pool: the pool is unchanged, the
result depends only on the input, the private instance's identity is not
in the pool, and no later sequence of API calls ever runs a parse on
that instance — so the returned document is never invalidated. -/
theorem C9_parse_private_never_invalidated (s : String) (w : World) :
    (Parse s w).2.1.pool = w.pool ∧
    (ParseBytes s w).2.1.pool = w.pool ∧
    (∀ w' : World, (Parse s w).1.1 = (Parse s w').1.1) ∧
    (∀ w' : World, (ParseBytes s w).1.1 = (ParseBytes s w').1.1) ∧
    (WF w →
       (Parse s w).1.2 ∉ poolIds w ∧
       ∀ ops : List Op,
         (Parse s w).1.2 ∉ parsedIds (runOps ops (Parse s w).2.1).2) := by
  rw [Parse_eq, ParseBytes_eq]
  refine ⟨rfl, rfl, fun w' => by rw [Parse_eq],
         fun w' => by rw [ParseBytes_eq], ?_⟩
  intro hw
  have hmem : w.nextId ∉ poolIds w := by
    intro hc
    obtain ⟨p, hp, hid⟩ := List.mem_map.1 hc
    have := hw p hp
    omega
  refine ⟨hmem, ?_⟩
  intro ops
  have hsafe : safeFor w.nextId ⟨w.pool, w.nextId + 1⟩ :=
    ⟨fun p hp => Nat.lt_succ_of_lt (hw p hp), hmem, Nat.lt_succ_self _⟩
  exact (runOps_safe w.nextId ops ⟨w.pool, w.nextId + 1⟩ hsafe).2

/-- Witness for C9: parse `1` from the empty world, then run an
accessor call and another one-shot parse; neither re-parses on the
private instance. -/
theorem C9_parse_private_never_invalidated_witness :
    (Parse "1" w0).2.1.pool = w0.pool ∧
    (Parse "1" w0).1.2 ∉ poolIds w0 ∧
    (Parse "1" w0).1.2 ∉
      parsedIds
        (runOps [Op.opGetInt "2" [], Op.opParse "3"] (Parse "1" w0).2.1).2 := by
  have h := C9_parse_private_never_invalidated "1" w0
  have hw : WF w0 := by intro p hp; simp [w0] at hp
  exact ⟨h.1, (h.2.2.2.2 hw).1, (h.2.2.2.2 hw).2 _⟩

end Libconfig
